import Mathlib

/-!
Formal model of the canvas editor component (the React + fabric.js `Canvas`
component of this repository).  The embedding translates the component's
functions directly and models the framework's observable commit semantics:
a handler reads the state values captured by its closure at the render that
installed it, all state updates queued during one event burst commit
together, and the last writer of a field wins.  Two consequences of the
source's wiring are therefore part of the model: the image-load callback's
`saveState` closes over the initial render's null `canvas`, so it captures
nothing; and an effective undo/redo fires `object:removed` / `object:added`
during `loadState`, whose subscribed handlers re-run `saveState`, so the
committed state of an effective undo appends a snapshot and places the
cursor at the new tail.  Each user action is one event burst.  Shapes live
in an append-only store (`List Shape`); a fabric object is a reference (an
index) into that store, so that `fabric.util.object.clone` can be modelled
as allocation of a fresh reference carrying a copy of the data — which is
what makes snapshot/live isolation (the deep-copy claim) a real statement
rather than a triviality.
-/

namespace EditorApp

/-- A shape: a `fabric.Rect` or `fabric.Circle` with the attributes the
component sets (position, size, fill, stroke, strokeWidth). -/
inductive Shape where
  | rect (left top width height : Int) (fill stroke : String) (strokeWidth : Int)
  | circle (left top radius : Int) (fill stroke : String) (strokeWidth : Int)
  deriving DecidableEq, Repr, Inhabited

/-- HistoryState (interface `HistoryState`): the snapshot's object references
plus its creation timestamp. -/
structure HistoryState where
  objects : List Nat
  timestamp : Nat
  deriving DecidableEq, Repr, Inhabited

/-- The `fabric.Canvas` handle: its object collection and the active
(selected) object. -/
structure FabricCanvas where
  objects : List Nat
  activeObject : Option Nat
  deriving DecidableEq, Repr, Inhabited

/-- The component state: `canvas` (null until the `fabric.Image.fromURL`
callback publishes it), `history`, `historyIndex`, the shape store (heap of
shape data addressed by reference), and the ambient clock read by
`Date.now()`. -/
structure CanvasState where
  canvas : Option FabricCanvas
  history : List HistoryState
  historyIndex : Int
  store : List Shape
  time : Nat
  deriving DecidableEq, Repr

/-- Model of `fabric.util.object.clone`: allocate a fresh reference carrying
a copy of the referenced shape's data. -/
def cloneObj (st : List Shape) (r : Nat) : Nat × List Shape :=
  (st.length, st ++ [st.getD r default])

/-- Clone a list of objects in order (`objects.map(obj => clone(obj))`,
and likewise the `forEach`/`add(clone(obj))` loop of `loadState`). -/
def cloneAll : List Nat → List Shape → List Nat × List Shape
  | [], st => ([], st)
  | r :: rs, st =>
    let p := cloneObj st r
    let q := cloneAll rs p.2
    (p.1 :: q.1, q.2)

/-- saveState: if the canvas handle is published, clone the canvas's current
objects into a new `HistoryState`, truncate the history to
`slice(0, historyIndex + 1)`, append the new state, and set the index to the
truncated history's length. -/
def saveState (s : CanvasState) : CanvasState :=
  match s.canvas with
  | none => s
  | some cv =>
    let p := cloneAll cv.objects s.store
    let newState : HistoryState := { objects := p.1, timestamp := s.time }
    let newHistory := s.history.take (s.historyIndex + 1).toNat
    { s with
      store := p.2
      history := newHistory ++ [newState]
      historyIndex := (newHistory.length : Int) }

/-- loadState: if the canvas handle is published, remove every current object
and add a clone of each of the given state's objects (removal deselects the
active object, per the graphics engine's removal semantics). -/
def loadState (s : CanvasState) (st : HistoryState) : CanvasState :=
  match s.canvas with
  | none => s
  | some _ =>
    let p := cloneAll st.objects s.store
    { s with
      store := p.2
      canvas := some { objects := p.1, activeObject := none } }

/-- undo: if `historyIndex > 0`, decrement the index and load the state at
the new index.  Loading removes every current object and re-adds clones,
and those `canvas.remove` / `canvas.add` calls fire the `object:removed` /
`object:added` events subscribed by the wiring effect; each handler runs
`saveState` with the pre-click `history` and `historyIndex` captured by its
closure, and the batched updates commit with the last writer winning.  So
whenever at least one object is removed or added, the committed history is
the pre-click history truncated to `slice(0, historyIndex + 1)` plus one
snapshot of the reloaded canvas, and the committed cursor is that
truncation's length.  When nothing is removed or added (no published
canvas, or empty canvas and empty target snapshot) no event fires and only
undo's own updates commit. -/
def undo (s : CanvasState) : CanvasState :=
  if 0 < s.historyIndex then
    let newIndex := s.historyIndex - 1
    let target := s.history.getD newIndex.toNat default
    let s1 := loadState { s with historyIndex := newIndex } target
    match s.canvas with
    | none => s1
    | some cv =>
      if cv.objects = [] ∧ target.objects = [] then s1
      else saveState { s1 with historyIndex := s.historyIndex }
  else s

/-- redo: if `historyIndex < history.length - 1`, increment the index and
load the state at the new index, with the same event feedback as undo: when
at least one object is removed or added during the load, the last feedback
`saveState` wins the batched update. -/
def redo (s : CanvasState) : CanvasState :=
  if s.historyIndex < (s.history.length : Int) - 1 then
    let newIndex := s.historyIndex + 1
    let target := s.history.getD newIndex.toNat default
    let s1 := loadState { s with historyIndex := newIndex } target
    match s.canvas with
    | none => s1
    | some cv =>
      if cv.objects = [] ∧ target.objects = [] then s1
      else saveState { s1 with historyIndex := s.historyIndex }
  else s

/-- The default-styled rectangle created by `addRectangle`. -/
def defaultRect : Shape := .rect 100 100 100 100 "transparent" "black" 2

/-- The default-styled circle created by `addCircle`. -/
def defaultCircle : Shape := .circle 100 100 50 "transparent" "black" 2

/-- addRectangle: if the canvas handle is published, allocate a default
rectangle, add it to the canvas and select it. -/
def addRectangle (s : CanvasState) : CanvasState :=
  match s.canvas with
  | none => s
  | some cv =>
    { s with
      store := s.store ++ [defaultRect]
      canvas := some { objects := cv.objects ++ [s.store.length],
                       activeObject := some s.store.length } }

/-- addCircle: if the canvas handle is published, allocate a default circle,
add it to the canvas and select it. -/
def addCircle (s : CanvasState) : CanvasState :=
  match s.canvas with
  | none => s
  | some cv =>
    { s with
      store := s.store ++ [defaultCircle]
      canvas := some { objects := cv.objects ++ [s.store.length],
                       activeObject := some s.store.length } }

/-- deleteSelected: if the canvas handle is published and there is an active
object, remove it (removal deselects it). -/
def deleteSelected (s : CanvasState) : CanvasState :=
  match s.canvas with
  | none => s
  | some cv =>
    match cv.activeObject with
    | none => s
    | some r =>
      { s with canvas := some { objects := cv.objects.erase r, activeObject := none } }

/-- A shape modification performed on the live surface (drag/resize through
the graphics engine): overwrite the shape data at the given reference. -/
def modifyObject (s : CanvasState) (r : Nat) (d : Shape) : CanvasState :=
  { s with store := s.store.set r d }

/-- The user-level add-rectangle action: `canvas.add` fires `object:added`,
whose handler calls `saveState`. -/
def addRectangleEvent (s : CanvasState) : CanvasState :=
  saveState (addRectangle s)

/-- The user-level add-circle action: `canvas.add` fires `object:added`,
whose handler calls `saveState`. -/
def addCircleEvent (s : CanvasState) : CanvasState :=
  saveState (addCircle s)

/-- The user-level delete action: when an object is actually removed,
`object:removed` fires and its handler calls `saveState`; otherwise nothing
happens. -/
def deleteSelectedEvent (s : CanvasState) : CanvasState :=
  match s.canvas with
  | none => s
  | some cv =>
    match cv.activeObject with
    | none => s
    | some _ => saveState (deleteSelected s)

/-- The user-level modify action: the `object:modified` handler runs only
when the event carries a target object, i.e. when an actual live object was
modified, and then calls `saveState`.  Without a published canvas, or
without that object on the canvas, no such event can occur. -/
def modifyObjectEvent (s : CanvasState) (r : Nat) (d : Shape) : CanvasState :=
  match s.canvas with
  | none => s
  | some cv =>
    if r ∈ cv.objects then saveState (modifyObject s r d) else s

/-- exportCanvas: rasterize and download `canvas-export.png`; a pure side
effect that leaves the component state unchanged, and a no-op without a
published canvas.  The second component is the produced download, if any. -/
def exportCanvas (s : CanvasState) : CanvasState × Option String :=
  match s.canvas with
  | none => (s, none)
  | some _ => (s, some "canvas-export.png")

/-- The `fabric.Image.fromURL` callback: publish the (freshly created,
empty) canvas handle.  The callback also calls `saveState`, but that
`saveState` is the closure of the render in which the effect ran, where the
`canvas` state value is still null — `setCanvas` does not rebind existing
closures — so its canvas guard fails and no initial capture occurs. -/
def imageLoaded (s : CanvasState) : CanvasState :=
  { s with canvas := some { objects := [], activeObject := none } }

/-- The component's initial state: no canvas handle, empty history,
`historyIndex = -1`, empty store. -/
def initState : CanvasState :=
  { canvas := none, history := [], historyIndex := -1, store := [], time := 0 }

/-- The environment's discrete events: the asynchronous image-load completion
and the six user-triggered actions (modification carries the reference and
the new shape data). -/
inductive Op where
  | loaded
  | addRect
  | addCircle
  | deleteSel
  | modify (r : Nat) (d : Shape)
  | undoOp
  | redoOp
  | exportPng
  deriving DecidableEq, Repr

/-- Apply one event to the component state. -/
def applyOp (s : CanvasState) : Op → CanvasState
  | .loaded => imageLoaded s
  | .addRect => addRectangleEvent s
  | .addCircle => addCircleEvent s
  | .deleteSel => deleteSelectedEvent s
  | .modify r d => modifyObjectEvent s r d
  | .undoOp => undo s
  | .redoOp => redo s
  | .exportPng => (exportCanvas s).1

/-- Run a sequence of events from a state. -/
def runOps (s : CanvasState) (l : List Op) : CanvasState :=
  l.foldl applyOp s

/-- The references currently on the canvas (empty when no handle is
published). -/
def canvasRefs (s : CanvasState) : List Nat :=
  match s.canvas with
  | none => []
  | some cv => cv.objects

/-- The shape data currently on the canvas, in order. -/
def canvasData (s : CanvasState) : List Shape :=
  (canvasRefs s).map fun r => s.store.getD r default

/-- The shape data recorded by a snapshot, read in a given state's store. -/
def snapData (s : CanvasState) (hs : HistoryState) : List Shape :=
  hs.objects.map fun r => s.store.getD r default

/-- The snapshot at the cursor. -/
def curSnap (s : CanvasState) : HistoryState :=
  s.history.getD s.historyIndex.toNat default

/-- The state invariant: the cursor is `-1` exactly when the history is
empty and otherwise a valid index; all recorded and live references are
allocated; recorded references are disjoint from live ones; the live canvas
agrees with the snapshot at the cursor; and without a published canvas no
snapshot has been taken. -/
def Inv (s : CanvasState) : Prop :=
  (s.history = [] ↔ s.historyIndex = -1) ∧
  (s.history ≠ [] → 0 ≤ s.historyIndex ∧ s.historyIndex < (s.history.length : Int)) ∧
  (∀ hs ∈ s.history, ∀ r ∈ hs.objects, r < s.store.length) ∧
  (∀ r ∈ canvasRefs s, r < s.store.length) ∧
  (∀ hs ∈ s.history, ∀ r ∈ hs.objects, r ∉ canvasRefs s) ∧
  (s.history ≠ [] → canvasData s = snapData s (curSnap s)) ∧
  (s.canvas = none → s.history = [])

instance decInv (s : CanvasState) : Decidable (Inv s) := by
  unfold Inv
  infer_instance

/-- The scenario of claim C6: background load, then add a rectangle, then
add a circle. -/
def scenarioC6 : CanvasState := runOps initState [Op.loaded, Op.addRect, Op.addCircle]

/-- The reference currently selected on the surface, if any. -/
def activeOf (s : CanvasState) : Option Nat :=
  match s.canvas with
  | none => none
  | some cv => cv.activeObject

/-- The cursor sits at the tail of the log, or at -1 with an empty log.
Every capture — including the feedback captures fired during an effective
undo — sets the cursor to the new last index, so this holds in every
reachable state. -/
def Tail (s : CanvasState) : Prop :=
  (s.history = [] ∧ s.historyIndex = -1) ∨
  s.historyIndex = (s.history.length : Int) - 1

/-- No two adjacent snapshots are both empty.  This rules out the only
situation in which an effective undo or redo would fire no events (empty
canvas and empty target snapshot). -/
def NoAdjEmpty (s : CanvasState) : Prop :=
  ∀ j < s.history.length, j + 1 < s.history.length →
    ¬((s.history.getD j default).objects = [] ∧
      (s.history.getD (j + 1) default).objects = [])

/-- The selected object, when present, is on the canvas. -/
def ActiveLive (s : CanvasState) : Prop :=
  ∀ r : Nat, activeOf s = some r → r ∈ canvasRefs s

/-- The strengthened trace invariant. -/
def InvT (s : CanvasState) : Prop := Inv s ∧ Tail s ∧ NoAdjEmpty s ∧ ActiveLive s

/-- A component state with the cursor strictly inside the log: the canvas
shows the middle snapshot's rectangle, with a circle recorded before it and
another after it. -/
def c2State : CanvasState :=
  { canvas := some { objects := [0], activeObject := none }
    history := [⟨[1], 0⟩, ⟨[2], 0⟩, ⟨[3], 0⟩]
    historyIndex := 1
    store := [defaultRect, defaultCircle, defaultRect, defaultCircle]
    time := 0 }

example : (imageLoaded initState).history.length = 0 := by decide

example : (runOps initState [.loaded, .addRect, .addCircle]).historyIndex = 1 := by decide

example : Inv (runOps initState [.loaded, .addRect, .addCircle, .undoOp]) := by decide

/-- Cloning allocates the references `store.length, store.length + 1, …` in
order. -/
lemma cloneAll_refs (rs : List Nat) (st : List Shape) :
    (cloneAll rs st).1 = List.range' st.length rs.length := by
  induction rs generalizing st with
  | nil => simp [cloneAll]
  | cons r rs ih =>
    simp [cloneAll, cloneObj, ih, List.range']

/-- Cloning only appends to the store. -/
lemma cloneAll_store_eq_append (rs : List Nat) (st : List Shape) :
    ∃ t, (cloneAll rs st).2 = st ++ t := by
  induction rs generalizing st with
  | nil => exact ⟨[], by simp [cloneAll]⟩
  | cons r rs ih =>
    obtain ⟨t, ht⟩ := ih (st ++ [st.getD r default])
    refine ⟨[st.getD r default] ++ t, ?_⟩
    simp only [cloneAll, cloneObj]
    rw [ht, List.append_assoc]

/-- Cloning grows the store by one cell per cloned object. -/
lemma cloneAll_store_length (rs : List Nat) (st : List Shape) :
    (cloneAll rs st).2.length = st.length + rs.length := by
  induction rs generalizing st with
  | nil => simp [cloneAll]
  | cons r rs ih =>
    simp [cloneAll, cloneObj, ih]
    omega

/-- Every reference returned by cloning is fresh (at or past the old store
length) and allocated in the returned store. -/
lemma cloneAll_fresh (rs : List Nat) (st : List Shape) :
    ∀ r' ∈ (cloneAll rs st).1, st.length ≤ r' ∧ r' < (cloneAll rs st).2.length := by
  intro r' hr'
  rw [cloneAll_refs] at hr'
  obtain ⟨i, hi, rfl⟩ := List.mem_range'.1 hr'
  rw [cloneAll_store_length]
  omega

/-- Reading bounded references is unaffected by appending to the store. -/
lemma mapGetD_append {α : Type} [Inhabited α] (rs : List Nat) (st t : List α)
    (h : ∀ r ∈ rs, r < st.length) :
    (rs.map fun r => (st ++ t).getD r default) = rs.map fun r => st.getD r default :=
  List.map_congr_left fun r hr => List.getD_append st t default r (h r hr)

/-- The cloned references read back, in the returned store, exactly the data
the cloned objects had in the old store. -/
lemma cloneAll_data (rs : List Nat) (st : List Shape)
    (h : ∀ r ∈ rs, r < st.length) :
    ((cloneAll rs st).1.map fun r => (cloneAll rs st).2.getD r default)
      = rs.map fun r => st.getD r default := by
  induction rs generalizing st with
  | nil => simp [cloneAll]
  | cons r rs ih =>
    have hb : ∀ r' ∈ rs, r' < (st ++ [st.getD r default]).length := by
      intro r' hr'
      have := h r' (List.mem_cons_of_mem _ hr')
      simp
      omega
    obtain ⟨t, ht⟩ := cloneAll_store_eq_append rs (st ++ [st.getD r default])
    have head : (cloneAll rs (st ++ [st.getD r default])).2.getD st.length default
        = st.getD r default := by
      rw [ht, List.append_assoc, List.getD_append_right st _ default st.length (Nat.le_refl _)]
      simp
    have tail := ih (st ++ [st.getD r default]) hb
    have tail' : (rs.map fun r' => (st ++ [st.getD r default]).getD r' default)
        = rs.map fun r' => st.getD r' default := by
      refine List.map_congr_left fun r' hr' => ?_
      exact List.getD_append st _ default r' (h r' (List.mem_cons_of_mem _ hr'))
    simp only [cloneAll, cloneObj] at *
    simp only [List.map_cons, head, tail, tail']


/-- saveState, unfolded, when the canvas handle is published. -/
lemma saveState_eq (s : CanvasState) (cv : FabricCanvas) (hc : s.canvas = some cv) :
    saveState s =
      { s with
        store := (cloneAll cv.objects s.store).2
        history := s.history.take (s.historyIndex + 1).toNat
          ++ [⟨(cloneAll cv.objects s.store).1, s.time⟩]
        historyIndex := ((s.history.take (s.historyIndex + 1).toNat).length : Int) } := by
  simp [saveState, hc]

/-- saveState is a no-op without a published canvas. -/
lemma saveState_none (s : CanvasState) (hc : s.canvas = none) : saveState s = s := by
  simp [saveState, hc]

/-- loadState, unfolded, when the canvas handle is published. -/
lemma loadState_eq (s : CanvasState) (cv : FabricCanvas) (hc : s.canvas = some cv)
    (hs : HistoryState) :
    loadState s hs =
      { s with
        store := (cloneAll hs.objects s.store).2
        canvas := some { objects := (cloneAll hs.objects s.store).1,
                         activeObject := none } } := by
  simp [loadState, hc]

/-- loadState is a no-op without a published canvas. -/
lemma loadState_none (s : CanvasState) (hc : s.canvas = none) (hs : HistoryState) :
    loadState s hs = s := by
  simp [loadState, hc]

/-- WF: the reference-hygiene part of the invariant (allocation bounds and
live/snapshot disjointness), all that `saveState` needs of its input. -/
def WF (s : CanvasState) : Prop :=
  (∀ hs ∈ s.history, ∀ r ∈ hs.objects, r < s.store.length) ∧
  (∀ r ∈ canvasRefs s, r < s.store.length) ∧
  (∀ hs ∈ s.history, ∀ r ∈ hs.objects, r ∉ canvasRefs s)

/-- The full invariant implies the reference-hygiene part. -/
lemma Inv.wf {s : CanvasState} (h : Inv s) : WF s :=
  ⟨h.2.2.1, h.2.2.2.1, h.2.2.2.2.1⟩

/-- saveState establishes the full invariant from reference hygiene alone
(in particular it repairs the canvas/cursor-snapshot agreement). -/
lemma inv_saveState (s : CanvasState) (cv : FabricCanvas) (hc : s.canvas = some cv)
    (hwf : WF s) : Inv (saveState s) := by
  obtain ⟨h3, h4, h5⟩ := hwf
  have hcr : canvasRefs s = cv.objects := by simp [canvasRefs, hc]
  have h4' : ∀ r ∈ cv.objects, r < s.store.length := by
    intro r hr
    exact h4 r (hcr ▸ hr)
  obtain ⟨t, ht⟩ := cloneAll_store_eq_append cv.objects s.store
  have hst : s.store.length ≤ (cloneAll cv.objects s.store).2.length := by
    rw [ht]
    simp
  rw [saveState_eq s cv hc]
  refine ⟨?_, ?_, ?_, ?_, ?_, ?_, ?_⟩
  · constructor
    · intro h
      simp at h
    · intro h
      exfalso
      have h' : ((List.take (s.historyIndex + 1).toNat s.history).length : Int) = -1 := h
      omega
  · intro _
    dsimp only
    simp only [List.length_append, List.length_cons, List.length_nil]
    omega
  · intro hs hmem r hr
    simp only [List.mem_append, List.mem_singleton] at hmem
    rcases hmem with hmem | rfl
    · have := h3 hs (List.take_subset _ _ hmem) r hr
      simp only []
      omega
    · exact ((cloneAll_fresh cv.objects s.store) r hr).2
  · intro r hr
    simp only [canvasRefs, hc] at hr ⊢
    have := h4' r hr
    omega
  · intro hs hmem r hr
    simp only [List.mem_append, List.mem_singleton] at hmem
    simp only [canvasRefs, hc] at *
    rcases hmem with hmem | rfl
    · exact h5 hs (List.take_subset _ _ hmem) r hr
    · intro hcontra
      have h1 := ((cloneAll_fresh cv.objects s.store) r hr).1
      have h2 := h4' r hcontra
      omega
  · intro _
    have hcur : curSnap
        { s with
          store := (cloneAll cv.objects s.store).2
          history := s.history.take (s.historyIndex + 1).toNat
            ++ [⟨(cloneAll cv.objects s.store).1, s.time⟩]
          historyIndex :=
            ((s.history.take (s.historyIndex + 1).toNat).length : Int) } =
        ⟨(cloneAll cv.objects s.store).1, s.time⟩ := by
      have h0 : (((List.take (s.historyIndex + 1).toNat s.history).length : Int)).toNat
          = (List.take (s.historyIndex + 1).toNat s.history).length := rfl
      simp only [curSnap, h0]
      rw [List.getD_append_right _ _ _ _ (Nat.le_refl _)]
      simp
    rw [hcur]
    simp only [canvasData, snapData, canvasRefs, hc]
    rw [cloneAll_data cv.objects s.store h4']
    rw [ht]
    exact mapGetD_append cv.objects s.store t h4'
  · intro h
    simp [hc] at h

/-- Loading the snapshot at any valid index re-establishes the invariant
with the cursor moved there (the common core of undo and redo). -/
lemma inv_loadState_at (s : CanvasState) (h : Inv s) (j : Int)
    (hj0 : 0 ≤ j) (hjlen : j < (s.history.length : Int)) :
    Inv (loadState { s with historyIndex := j }
      (s.history.getD j.toNat default)) := by
  have hne : s.history ≠ [] := by
    intro he
    rw [he] at hjlen
    simp at hjlen
    omega
  obtain ⟨cv, hc⟩ : ∃ cv, s.canvas = some cv := by
    cases hsc : s.canvas with
    | none => exact absurd (h.2.2.2.2.2.2 hsc) hne
    | some cv => exact ⟨cv, rfl⟩
  have hc' : ({ s with historyIndex := j } : CanvasState).canvas = some cv := hc
  have hjn : j.toNat < s.history.length := by omega
  have hmem : s.history.getD j.toNat default ∈ s.history := by
    rw [List.getD_eq_getElem _ _ hjn]
    exact List.getElem_mem hjn
  have hb : ∀ r ∈ (s.history.getD j.toNat default).objects, r < s.store.length :=
    h.2.2.1 _ hmem
  obtain ⟨t, ht⟩ :=
    cloneAll_store_eq_append (s.history.getD j.toNat default).objects s.store
  rw [loadState_eq _ cv hc']
  refine ⟨?_, ?_, ?_, ?_, ?_, ?_, ?_⟩
  · constructor
    · intro he
      exact absurd he hne
    · intro hj
      exfalso
      have hj' : j = -1 := hj
      omega
  · intro _
    exact ⟨hj0, hjlen⟩
  · intro hs hmem' r hr
    have := h.2.2.1 hs hmem' r hr
    dsimp only
    rw [cloneAll_store_length]
    omega
  · intro r hr
    simp only [canvasRefs] at hr ⊢
    exact (cloneAll_fresh _ _ r hr).2
  · intro hs hmem' r hr
    simp only [canvasRefs]
    intro hcontra
    have h1 := (cloneAll_fresh _ _ r hcontra).1
    have h2 := h.2.2.1 hs hmem' r hr
    omega
  · intro _
    simp only [canvasData, snapData, curSnap, canvasRefs]
    rw [cloneAll_data _ _ hb, ht, mapGetD_append _ _ t hb]
  · intro hcn
    simp at hcn

/-- undo when its guard fails: nothing at all happens. -/
lemma undo_eq_noop (s : CanvasState) (hg : ¬ 0 < s.historyIndex) : undo s = s := by
  simp only [undo, if_neg hg]

/-- undo when no object event fires (published canvas, empty canvas and
empty target snapshot): only undo's own updates commit. -/
lemma undo_eq_quiet (s : CanvasState) (cv : FabricCanvas) (hg : 0 < s.historyIndex)
    (hc : s.canvas = some cv)
    (hq : cv.objects = [] ∧
      (s.history.getD (s.historyIndex - 1).toNat default).objects = []) :
    undo s = loadState { s with historyIndex := s.historyIndex - 1 }
      (s.history.getD (s.historyIndex - 1).toNat default) := by
  simp only [undo, if_pos hg, hc]
  rw [if_pos hq]

/-- undo when at least one object event fires: the last feedback capture
wins the batched update. -/
lemma undo_eq_feedback (s : CanvasState) (cv : FabricCanvas) (hg : 0 < s.historyIndex)
    (hc : s.canvas = some cv)
    (hq : ¬(cv.objects = [] ∧
      (s.history.getD (s.historyIndex - 1).toNat default).objects = [])) :
    undo s = saveState
      { loadState { s with historyIndex := s.historyIndex - 1 }
          (s.history.getD (s.historyIndex - 1).toNat default) with
        historyIndex := s.historyIndex } := by
  simp only [undo, if_pos hg, hc]
  rw [if_neg hq]

/-- redo when its guard fails: nothing at all happens. -/
lemma redo_eq_noop (s : CanvasState)
    (hg : ¬ s.historyIndex < (s.history.length : Int) - 1) : redo s = s := by
  simp only [redo, if_neg hg]

/-- redo when no object event fires. -/
lemma redo_eq_quiet (s : CanvasState) (cv : FabricCanvas)
    (hg : s.historyIndex < (s.history.length : Int) - 1)
    (hc : s.canvas = some cv)
    (hq : cv.objects = [] ∧
      (s.history.getD (s.historyIndex + 1).toNat default).objects = []) :
    redo s = loadState { s with historyIndex := s.historyIndex + 1 }
      (s.history.getD (s.historyIndex + 1).toNat default) := by
  simp only [redo, if_pos hg, hc]
  rw [if_pos hq]

/-- redo when at least one object event fires. -/
lemma redo_eq_feedback (s : CanvasState) (cv : FabricCanvas)
    (hg : s.historyIndex < (s.history.length : Int) - 1)
    (hc : s.canvas = some cv)
    (hq : ¬(cv.objects = [] ∧
      (s.history.getD (s.historyIndex + 1).toNat default).objects = [])) :
    redo s = saveState
      { loadState { s with historyIndex := s.historyIndex + 1 }
          (s.history.getD (s.historyIndex + 1).toNat default) with
        historyIndex := s.historyIndex } := by
  simp only [redo, if_pos hg, hc]
  rw [if_neg hq]

/-- The committed state of a feedback capture — the canvas as reloaded from
any snapshot, captured with the pre-click cursor restored for the
truncation — written as one record. -/
lemma feedback_rec_eq (s : CanvasState) (cv : FabricCanvas)
    (hc : s.canvas = some cv) (j : Int) (hs0 : HistoryState) :
    ({ loadState { s with historyIndex := j } hs0 with
        historyIndex := s.historyIndex } : CanvasState) =
      CanvasState.mk (some (FabricCanvas.mk (cloneAll hs0.objects s.store).1 none))
        s.history s.historyIndex (cloneAll hs0.objects s.store).2 s.time := by
  have hc' : ({ s with historyIndex := j } : CanvasState).canvas = some cv := hc
  rw [loadState_eq _ cv hc']

/-- The committed state of a feedback capture satisfies the invariant. -/
lemma inv_feedback_capture (s : CanvasState) (h : Inv s) (cv : FabricCanvas)
    (hc : s.canvas = some cv) (j : Int) (hs0 : HistoryState) :
    Inv (saveState { loadState { s with historyIndex := j } hs0 with
      historyIndex := s.historyIndex }) := by
  rw [feedback_rec_eq s cv hc j hs0]
  apply inv_saveState _ (FabricCanvas.mk (cloneAll hs0.objects s.store).1 none) rfl
  refine ⟨?_, ?_, ?_⟩
  · intro hsx hmem r hr
    have h1 := h.2.2.1 hsx hmem r hr
    show r < (cloneAll hs0.objects s.store).2.length
    rw [cloneAll_store_length]
    omega
  · intro r hr
    have hr' : r ∈ (cloneAll hs0.objects s.store).1 := hr
    show r < (cloneAll hs0.objects s.store).2.length
    exact (cloneAll_fresh _ _ r hr').2
  · intro hsx hmem r hr
    show r ∉ (cloneAll hs0.objects s.store).1
    intro hcontra
    have h1 := (cloneAll_fresh _ _ r hcontra).1
    have h2 := h.2.2.1 hsx hmem r hr
    omega

/-- undo preserves the invariant. -/
lemma inv_undo (s : CanvasState) (h : Inv s) : Inv (undo s) := by
  by_cases hg : 0 < s.historyIndex
  · have hne : s.history ≠ [] := by
      intro he
      have := h.1.mp he
      omega
    obtain ⟨cv, hc⟩ : ∃ cv, s.canvas = some cv := by
      cases hsc : s.canvas with
      | none => exact absurd (h.2.2.2.2.2.2 hsc) hne
      | some cv => exact ⟨cv, rfl⟩
    have hb := h.2.1 hne
    by_cases hq : cv.objects = [] ∧
        (s.history.getD (s.historyIndex - 1).toNat default).objects = []
    · rw [undo_eq_quiet s cv hg hc hq]
      exact inv_loadState_at s h (s.historyIndex - 1) (by omega) (by omega)
    · rw [undo_eq_feedback s cv hg hc hq]
      exact inv_feedback_capture s h cv hc (s.historyIndex - 1)
        (s.history.getD (s.historyIndex - 1).toNat default)
  · rw [undo_eq_noop s hg]
    exact h

/-- redo preserves the invariant. -/
lemma inv_redo (s : CanvasState) (h : Inv s) : Inv (redo s) := by
  by_cases hg : s.historyIndex < (s.history.length : Int) - 1
  · have hne : s.history ≠ [] := by
      intro he
      have h1 := h.1.mp he
      rw [he] at hg
      simp at hg
      omega
    obtain ⟨cv, hc⟩ : ∃ cv, s.canvas = some cv := by
      cases hsc : s.canvas with
      | none => exact absurd (h.2.2.2.2.2.2 hsc) hne
      | some cv => exact ⟨cv, rfl⟩
    have hb := h.2.1 hne
    by_cases hq : cv.objects = [] ∧
        (s.history.getD (s.historyIndex + 1).toNat default).objects = []
    · rw [redo_eq_quiet s cv hg hc hq]
      exact inv_loadState_at s h (s.historyIndex + 1) (by omega) (by omega)
    · rw [redo_eq_feedback s cv hg hc hq]
      exact inv_feedback_capture s h cv hc (s.historyIndex + 1)
        (s.history.getD (s.historyIndex + 1).toNat default)
  · rw [redo_eq_noop s hg]
    exact h

/-- Adding a freshly allocated, default-styled shape preserves reference
hygiene (shared by addRectangle and addCircle). -/
lemma wf_addShape (s : CanvasState) (cv : FabricCanvas) (hsc : s.canvas = some cv)
    (h : Inv s) (d : Shape) :
    WF { s with
          store := s.store ++ [d]
          canvas := some { objects := cv.objects ++ [s.store.length],
                           activeObject := some s.store.length } } := by
  have hcr : canvasRefs s = cv.objects := by simp [canvasRefs, hsc]
  refine ⟨?_, ?_, ?_⟩
  · intro hs hmem r hr
    have := h.2.2.1 hs hmem r hr
    dsimp only
    simp only [List.length_append, List.length_cons, List.length_nil]
    omega
  · intro r hr
    simp only [canvasRefs, List.mem_append, List.mem_singleton] at hr
    dsimp only
    simp only [List.length_append, List.length_cons, List.length_nil]
    rcases hr with hr | rfl
    · have := h.2.2.2.1 r (hcr ▸ hr)
      omega
    · omega
  · intro hs hmem r hr
    simp only [canvasRefs, List.mem_append, List.mem_singleton]
    intro hcontra
    rcases hcontra with hcontra | rfl
    · exact h.2.2.2.2.1 hs hmem r hr (hcr ▸ hcontra)
    · have := h.2.2.1 hs hmem _ hr
      omega

/-- The add-rectangle action preserves the invariant. -/
lemma inv_addRectangleEvent (s : CanvasState) (h : Inv s) :
    Inv (addRectangleEvent s) := by
  cases hsc : s.canvas with
  | none =>
    have h1 : addRectangle s = s := by simp [addRectangle, hsc]
    simp only [addRectangleEvent, h1, saveState_none s hsc]
    exact h
  | some cv =>
    have h1 : addRectangle s =
        { s with
          store := s.store ++ [defaultRect]
          canvas := some { objects := cv.objects ++ [s.store.length],
                           activeObject := some s.store.length } } := by
      simp [addRectangle, hsc]
    simp only [addRectangleEvent, h1]
    exact inv_saveState _ _ rfl (wf_addShape s cv hsc h defaultRect)

/-- The add-circle action preserves the invariant. -/
lemma inv_addCircleEvent (s : CanvasState) (h : Inv s) :
    Inv (addCircleEvent s) := by
  cases hsc : s.canvas with
  | none =>
    have h1 : addCircle s = s := by simp [addCircle, hsc]
    simp only [addCircleEvent, h1, saveState_none s hsc]
    exact h
  | some cv =>
    have h1 : addCircle s =
        { s with
          store := s.store ++ [defaultCircle]
          canvas := some { objects := cv.objects ++ [s.store.length],
                           activeObject := some s.store.length } } := by
      simp [addCircle, hsc]
    simp only [addCircleEvent, h1]
    exact inv_saveState _ _ rfl (wf_addShape s cv hsc h defaultCircle)

/-- The delete action preserves the invariant. -/
lemma inv_deleteSelectedEvent (s : CanvasState) (h : Inv s) :
    Inv (deleteSelectedEvent s) := by
  cases hsc : s.canvas with
  | none =>
    simpa only [deleteSelectedEvent, hsc] using h
  | some cv =>
    cases hao : cv.activeObject with
    | none =>
      simpa only [deleteSelectedEvent, hsc, hao] using h
    | some r0 =>
      have hcr : canvasRefs s = cv.objects := by simp [canvasRefs, hsc]
      have h1 : deleteSelected s =
          { s with canvas := some { objects := cv.objects.erase r0,
                                    activeObject := none } } := by
        simp [deleteSelected, hsc, hao]
      simp only [deleteSelectedEvent, hsc, hao, h1]
      refine inv_saveState _ _ rfl ⟨?_, ?_, ?_⟩
      · exact h.2.2.1
      · intro r hr
        simp only [canvasRefs] at hr
        exact h.2.2.2.1 r (hcr ▸ List.erase_subset _ _ hr)
      · intro hs hmem r hr
        simp only [canvasRefs]
        intro hcontra
        exact h.2.2.2.2.1 hs hmem r hr (hcr ▸ List.erase_subset _ _ hcontra)

/-- The modify action preserves the invariant. -/
lemma inv_modifyObjectEvent (s : CanvasState) (r : Nat) (d : Shape) (h : Inv s) :
    Inv (modifyObjectEvent s r d) := by
  cases hsc : s.canvas with
  | none =>
    simpa only [modifyObjectEvent, hsc] using h
  | some cv =>
    have hcr : canvasRefs s = cv.objects := by simp [canvasRefs, hsc]
    have hcr' : canvasRefs (modifyObject s r d) = cv.objects := by
      simp [canvasRefs, modifyObject, hsc]
    simp only [modifyObjectEvent, hsc]
    by_cases hrm : r ∈ cv.objects
    case neg =>
      rw [if_neg hrm]
      exact h
    rw [if_pos hrm]
    refine inv_saveState (modifyObject s r d) cv hsc ⟨?_, ?_, ?_⟩
    · intro hs hmem r' hr'
      have := h.2.2.1 hs hmem r' hr'
      simp only [modifyObject, List.length_set]
      omega
    · intro r' hr'
      have := h.2.2.2.1 r' (hcr ▸ hcr' ▸ hr')
      simp only [modifyObject, List.length_set]
      omega
    · intro hs hmem r' hr'
      rw [hcr']
      exact fun hcontra => h.2.2.2.2.1 hs hmem r' hr' (hcr ▸ hcontra)

/-- Export does not change the component state. -/
lemma exportCanvas_fst (s : CanvasState) : (exportCanvas s).1 = s := by
  cases hsc : s.canvas <;> simp [exportCanvas, hsc]

/-- Every user event preserves the invariant.  (The image-load callback is
treated separately: it is not a user event and fires once, before any
snapshot exists.) -/
lemma inv_applyOp (s : CanvasState) (h : Inv s) (op : Op) (hop : op ≠ Op.loaded) :
    Inv (applyOp s op) := by
  cases op with
  | loaded => exact absurd rfl hop
  | addRect => exact inv_addRectangleEvent s h
  | addCircle => exact inv_addCircleEvent s h
  | deleteSel => exact inv_deleteSelectedEvent s h
  | modify r d => exact inv_modifyObjectEvent s r d h
  | undoOp => exact inv_undo s h
  | redoOp => exact inv_redo s h
  | exportPng => simpa only [applyOp, exportCanvas_fst] using h

/-- User-event sequences preserve the invariant. -/
lemma inv_runOps (s : CanvasState) (h : Inv s) (l : List Op) (hl : Op.loaded ∉ l) :
    Inv (runOps s l) := by
  induction l generalizing s with
  | nil => exact h
  | cons op l ih =>
    have hop : op ≠ Op.loaded := fun he => hl (he ▸ List.mem_cons_self _ _)
    have hl' : Op.loaded ∉ l := fun hm => hl (List.mem_cons_of_mem _ hm)
    exact ih (applyOp s op) (inv_applyOp s h op hop) hl'

/-- The initial state satisfies the invariant. -/
lemma inv_init : Inv initState := by decide

/-- loadState never touches the history log. -/
lemma loadState_history (s : CanvasState) (hs : HistoryState) :
    (loadState s hs).history = s.history := by
  cases hsc : s.canvas <;> simp [loadState, hsc]

/-- loadState preserves the recorded data of every snapshot whose references
are allocated. -/
lemma snapData_loadState (s : CanvasState) (hs0 hs : HistoryState)
    (hb : ∀ r ∈ hs.objects, r < s.store.length) :
    snapData (loadState s hs0) hs = snapData s hs := by
  cases hsc : s.canvas with
  | none => rw [loadState_none s hsc]
  | some cv =>
    rw [loadState_eq s cv hsc]
    obtain ⟨t, ht⟩ := cloneAll_store_eq_append hs0.objects s.store
    simp only [snapData]
    rw [ht]
    exact mapGetD_append _ _ _ hb

/-- Reading a truncated history below the truncation point gives the
original entries. -/
lemma getD_take (l : List HistoryState) (n j : Nat) (hj : j < n) :
    (l.take n).getD j default = l.getD j default := by
  simp only [List.getD_eq_getElem?_getD, List.getElem?_take_of_lt hj]

/-- Overwriting one store cell leaves every other cell unchanged. -/
lemma getD_set_ne (l : List Shape) (i j : Nat) (a : Shape) (hij : i ≠ j) :
    (l.set i a).getD j default = l.getD j default := by
  simp only [List.getD_eq_getElem?_getD, List.getElem?_set_ne hij]

/-- saveState never touches the canvas handle. -/
lemma saveState_canvas (s : CanvasState) : (saveState s).canvas = s.canvas := by
  cases hsc : s.canvas <;> simp [saveState, hsc]

/-- Cloning produces one reference per cloned object. -/
lemma cloneAll_fst_length (rs : List Nat) (st : List Shape) :
    (cloneAll rs st).1.length = rs.length := by
  rw [cloneAll_refs]
  simp

/-- With the cursor at the tail, a capture truncates nothing: it appends one
snapshot and moves the cursor to the new tail. -/
lemma saveState_tail (s : CanvasState) (cv : FabricCanvas) (hc : s.canvas = some cv)
    (ht : Tail s) :
    (saveState s).history
        = s.history ++ [⟨(cloneAll cv.objects s.store).1, s.time⟩] ∧
    (saveState s).historyIndex = (s.history.length : Int) ∧
    (saveState s).history.length = s.history.length + 1 := by
  have htk : s.history.take (s.historyIndex + 1).toNat = s.history := by
    rcases ht with ⟨he, hi⟩ | hi
    · rw [he]
      simp
    · rw [hi]
      have h2 : ((s.history.length : Int) - 1 + 1).toNat = s.history.length := by omega
      rw [h2, List.take_length]
  rw [saveState_eq s cv hc]
  refine ⟨?_, ?_, ?_⟩
  · dsimp only
    rw [htk]
  · dsimp only
    rw [htk]
  · dsimp only
    rw [htk]
    simp

/-- The two length facts of a capture fired at the tail: the log grows by
exactly one and the cursor lands on the new last index. -/
lemma captureEvent_spec (s : CanvasState) (cv : FabricCanvas) (hc : s.canvas = some cv)
    (ht : Tail s) :
    (saveState s).history.length = s.history.length + 1 ∧
    (saveState s).historyIndex = ((saveState s).history.length : Int) - 1 := by
  obtain ⟨hh, hi, hl⟩ := saveState_tail s cv hc ht
  refine ⟨hl, ?_⟩
  rw [hi, hl]
  push_cast
  ring

/-- With the cursor at the tail of a nonempty log, its Nat form is
length - 1. -/
lemma tail_toNat (s : CanvasState) (ht : Tail s) (hne : s.history ≠ []) :
    s.historyIndex.toNat = s.history.length - 1 := by
  rcases ht with ⟨he, _⟩ | hi
  · exact absurd he hne
  · have hl : 0 < s.history.length := List.length_pos.mpr hne
    omega

/-- Via the canvas/cursor-snapshot agreement, the canvas is empty exactly
when the cursor snapshot is. -/
lemma agree_empty_iff (s : CanvasState) (cv : FabricCanvas) (hc : s.canvas = some cv)
    (h : Inv s) (hne : s.history ≠ []) :
    (cv.objects = [] ↔
      (s.history.getD s.historyIndex.toNat default).objects = []) := by
  have hag := h.2.2.2.2.2.1 hne
  have h1 : (canvasData s).length = cv.objects.length := by
    simp [canvasData, canvasRefs, hc]
  have h2 : (snapData s (curSnap s)).length
      = (s.history.getD s.historyIndex.toNat default).objects.length := by
    simp [snapData, curSnap]
  rw [hag] at h1
  constructor
  · intro he
    refine List.length_eq_zero.mp ?_
    rw [← h2, h1, he]
    rfl
  · intro he
    refine List.length_eq_zero.mp ?_
    rw [← h1, h2, he]
    rfl

/-- The canvas handle is unchanged by a capture, so the live references are
too. -/
lemma canvasRefs_saveState (s : CanvasState) :
    canvasRefs (saveState s) = canvasRefs s := by
  unfold canvasRefs
  rw [saveState_canvas]

/-- The selection is unchanged by a capture. -/
lemma activeOf_saveState (s : CanvasState) :
    activeOf (saveState s) = activeOf s := by
  unfold activeOf
  rw [saveState_canvas]

/-- A capture fired at the tail establishes the strengthened invariant,
given reference hygiene, the tail cursor, no adjacent empty snapshots, a
live selection, and that the appended snapshot does not create an adjacent
empty pair (the captured canvas is nonempty, or the log is empty, or its
last snapshot is nonempty). -/
lemma invT_saveState (s : CanvasState) (cv : FabricCanvas) (hc : s.canvas = some cv)
    (hwf : WF s) (ht : Tail s) (hadj : NoAdjEmpty s) (hal : ActiveLive s)
    (hpred : cv.objects ≠ [] ∨ s.history = [] ∨
      (s.history.getD (s.history.length - 1) default).objects ≠ []) :
    InvT (saveState s) := by
  obtain ⟨hh, hi, hl⟩ := saveState_tail s cv hc ht
  refine ⟨inv_saveState s cv hc hwf, ?_, ?_, ?_⟩
  · right
    rw [hi, hl]
    push_cast
    ring
  · intro j hj hj1
    rw [hh] at hj hj1 ⊢
    simp only [List.length_append, List.length_cons, List.length_nil] at hj hj1
    rcases Nat.lt_or_ge (j + 1) s.history.length with hlt | hge
    · rw [List.getD_append _ _ _ _ (by omega), List.getD_append _ _ _ _ hlt]
      exact hadj j (by omega) hlt
    · have hj1e : j + 1 = s.history.length := by omega
      rintro ⟨hfst, hsnd⟩
      rw [List.getD_append_right _ _ _ _ (by omega), hj1e, Nat.sub_self,
        List.getD_cons_zero] at hsnd
      have hcve : cv.objects = [] := by
        have hlen := cloneAll_fst_length cv.objects s.store
        have he : (cloneAll cv.objects s.store).1 = [] := hsnd
        rw [he] at hlen
        exact List.length_eq_zero.mp hlen.symm
      rw [List.getD_append _ _ _ _ (by omega)] at hfst
      rcases hpred with hp | hp | hp
      · exact hp hcve
      · rw [hp] at hj1e
        simp at hj1e
      · have hje : j = s.history.length - 1 := by omega
        rw [hje] at hfst
        exact hp hfst
  · intro r hr
    rw [activeOf_saveState] at hr
    rw [canvasRefs_saveState]
    exact hal r hr

/-- Adding a shape preserves the strengthened invariant. -/
lemma invT_addRectangleEvent (s : CanvasState) (h : InvT s) :
    InvT (addRectangleEvent s) := by
  obtain ⟨hI, hT, hA, hL⟩ := h
  cases hsc : s.canvas with
  | none =>
    have h1 : addRectangle s = s := by simp [addRectangle, hsc]
    simp only [addRectangleEvent, h1, saveState_none s hsc]
    exact ⟨hI, hT, hA, hL⟩
  | some cv =>
    have h1 : addRectangle s =
        { s with
          store := s.store ++ [defaultRect]
          canvas := some { objects := cv.objects ++ [s.store.length],
                           activeObject := some s.store.length } } := by
      simp [addRectangle, hsc]
    simp only [addRectangleEvent, h1]
    refine invT_saveState _
      (FabricCanvas.mk (cv.objects ++ [s.store.length]) (some s.store.length))
      rfl ?_ ?_ ?_ ?_ ?_
    · exact h1 ▸ wf_addShape s cv hsc hI defaultRect
    · exact hT
    · exact hA
    · intro r hr
      have hr' : some s.store.length = some r := hr
      have he : s.store.length = r := Option.some.inj hr'
      show r ∈ cv.objects ++ [s.store.length]
      rw [← he]
      simp
    · left
      simp

/-- Adding a circle preserves the strengthened invariant. -/
lemma invT_addCircleEvent (s : CanvasState) (h : InvT s) :
    InvT (addCircleEvent s) := by
  obtain ⟨hI, hT, hA, hL⟩ := h
  cases hsc : s.canvas with
  | none =>
    have h1 : addCircle s = s := by simp [addCircle, hsc]
    simp only [addCircleEvent, h1, saveState_none s hsc]
    exact ⟨hI, hT, hA, hL⟩
  | some cv =>
    have h1 : addCircle s =
        { s with
          store := s.store ++ [defaultCircle]
          canvas := some { objects := cv.objects ++ [s.store.length],
                           activeObject := some s.store.length } } := by
      simp [addCircle, hsc]
    simp only [addCircleEvent, h1]
    refine invT_saveState _
      (FabricCanvas.mk (cv.objects ++ [s.store.length]) (some s.store.length))
      rfl ?_ ?_ ?_ ?_ ?_
    · exact h1 ▸ wf_addShape s cv hsc hI defaultCircle
    · exact hT
    · exact hA
    · intro r hr
      have hr' : some s.store.length = some r := hr
      have he : s.store.length = r := Option.some.inj hr'
      show r ∈ cv.objects ++ [s.store.length]
      rw [← he]
      simp
    · left
      simp

/-- Deleting the selection preserves the strengthened invariant. -/
lemma invT_deleteSelectedEvent (s : CanvasState) (h : InvT s) :
    InvT (deleteSelectedEvent s) := by
  obtain ⟨hI, hT, hA, hL⟩ := h
  cases hsc : s.canvas with
  | none =>
    simp only [deleteSelectedEvent, hsc]
    exact ⟨hI, hT, hA, hL⟩
  | some cv =>
    cases hao : cv.activeObject with
    | none =>
      simp only [deleteSelectedEvent, hsc, hao]
      exact ⟨hI, hT, hA, hL⟩
    | some r0 =>
      have hcr : canvasRefs s = cv.objects := by simp [canvasRefs, hsc]
      have hr0 : r0 ∈ cv.objects := by
        have := hL r0 (by simp [activeOf, hsc, hao])
        exact hcr ▸ this
      have hcvne : cv.objects ≠ [] := by
        intro he
        rw [he] at hr0
        exact absurd hr0 (List.not_mem_nil r0)
      have h1 : deleteSelected s =
          { s with canvas := some { objects := cv.objects.erase r0,
                                    activeObject := none } } := by
        simp [deleteSelected, hsc, hao]
      simp only [deleteSelectedEvent, hsc, hao, h1]
      refine invT_saveState _ (FabricCanvas.mk (cv.objects.erase r0) none)
        rfl ?_ ?_ ?_ ?_ ?_
      · refine ⟨hI.2.2.1, ?_, ?_⟩
        · intro r hr
          have hr' : r ∈ cv.objects.erase r0 := hr
          exact hI.2.2.2.1 r (hcr ▸ List.erase_subset _ _ hr')
        · intro hs hmem r hr
          show r ∉ cv.objects.erase r0
          intro hcontra
          exact hI.2.2.2.2.1 hs hmem r hr (hcr ▸ List.erase_subset _ _ hcontra)
      · exact hT
      · exact hA
      · intro r hr
        have hr' : (none : Option Nat) = some r := hr
        simp at hr'
      · by_cases hne : s.history = []
        · exact Or.inr (Or.inl hne)
        · refine Or.inr (Or.inr ?_)
          show (s.history.getD (s.history.length - 1) default).objects ≠ []
          have hiff := agree_empty_iff s cv hsc hI hne
          have htn := tail_toNat s hT hne
          rw [← htn]
          exact fun hl => hcvne (hiff.mpr hl)

/-- Modifying a live shape preserves the strengthened invariant. -/
lemma invT_modifyObjectEvent (s : CanvasState) (r : Nat) (d : Shape) (h : InvT s) :
    InvT (modifyObjectEvent s r d) := by
  obtain ⟨hI, hT, hA, hL⟩ := h
  cases hsc : s.canvas with
  | none =>
    simp only [modifyObjectEvent, hsc]
    exact ⟨hI, hT, hA, hL⟩
  | some cv =>
    have hcr : canvasRefs s = cv.objects := by simp [canvasRefs, hsc]
    have hcr' : canvasRefs (modifyObject s r d) = cv.objects := by
      simp [canvasRefs, modifyObject, hsc]
    simp only [modifyObjectEvent, hsc]
    by_cases hrm : r ∈ cv.objects
    case neg =>
      rw [if_neg hrm]
      exact ⟨hI, hT, hA, hL⟩
    rw [if_pos hrm]
    have hcvne : cv.objects ≠ [] := by
      intro he
      rw [he] at hrm
      exact absurd hrm (List.not_mem_nil r)
    refine invT_saveState (modifyObject s r d) cv hsc ?_ ?_ ?_ ?_ ?_
    · refine ⟨?_, ?_, ?_⟩
      · intro hs hmem r' hr'
        have h1 := hI.2.2.1 hs hmem r' hr'
        show r' < (s.store.set r d).length
        rw [List.length_set]
        omega
      · intro r' hr'
        rw [hcr'] at hr'
        have h1 := hI.2.2.2.1 r' (hcr ▸ hr')
        show r' < (s.store.set r d).length
        rw [List.length_set]
        omega
      · intro hs hmem r' hr'
        rw [hcr']
        exact fun hcontra => hI.2.2.2.2.1 hs hmem r' hr' (hcr ▸ hcontra)
    · exact hT
    · exact hA
    · intro r' hr'
      have hr'' : activeOf s = some r' := hr'
      have h1 := hL r' hr''
      show r' ∈ canvasRefs (modifyObject s r d)
      rw [hcr']
      exact hcr ▸ h1
    · left
      exact hcvne

/-- Undo preserves the strengthened invariant: in an invariant state its
quiet branch is unreachable, and the feedback capture lands the cursor on
the new tail. -/
lemma invT_undo (s : CanvasState) (h : InvT s) : InvT (undo s) := by
  obtain ⟨hI, hT, hA, hL⟩ := h
  by_cases hg : 0 < s.historyIndex
  case neg =>
    rw [undo_eq_noop s hg]
    exact ⟨hI, hT, hA, hL⟩
  case pos =>
  have hne : s.history ≠ [] := by
    intro he
    have := hI.1.mp he
    omega
  obtain ⟨cv, hc⟩ : ∃ cv, s.canvas = some cv := by
    cases hsc : s.canvas with
    | none => exact absurd (hI.2.2.2.2.2.2 hsc) hne
    | some cv => exact ⟨cv, rfl⟩
  have hb := hI.2.1 hne
  have hTl : s.historyIndex = (s.history.length : Int) - 1 := by
    rcases hT with ⟨he, _⟩ | hi
    · exact absurd he hne
    · exact hi
  have htn := tail_toNat s hT hne
  have hq : ¬(cv.objects = [] ∧
      (s.history.getD (s.historyIndex - 1).toNat default).objects = []) := by
    rintro ⟨hcv, htg⟩
    have hiff := agree_empty_iff s cv hc hI hne
    have hcur : (s.history.getD s.historyIndex.toNat default).objects = [] :=
      hiff.mp hcv
    have hj : (s.historyIndex - 1).toNat + 1 = s.historyIndex.toNat := by omega
    have hjlt : (s.historyIndex - 1).toNat < s.history.length := by omega
    have hj1lt : (s.historyIndex - 1).toNat + 1 < s.history.length := by omega
    exact hA _ hjlt hj1lt ⟨htg, by rw [hj]; exact hcur⟩
  rw [undo_eq_feedback s cv hg hc hq]
  rw [feedback_rec_eq s cv hc (s.historyIndex - 1)
    (s.history.getD (s.historyIndex - 1).toNat default)]
  refine invT_saveState _ (FabricCanvas.mk
      (cloneAll (s.history.getD (s.historyIndex - 1).toNat default).objects
        s.store).1 none) rfl ?_ ?_ ?_ ?_ ?_
  · refine ⟨?_, ?_, ?_⟩
    · intro hsx hmem r hr
      have h1 := hI.2.2.1 hsx hmem r hr
      show r < (cloneAll
        (s.history.getD (s.historyIndex - 1).toNat default).objects s.store).2.length
      rw [cloneAll_store_length]
      omega
    · intro r hr
      have hr' : r ∈ (cloneAll
          (s.history.getD (s.historyIndex - 1).toNat default).objects s.store).1 := hr
      show r < (cloneAll
        (s.history.getD (s.historyIndex - 1).toNat default).objects s.store).2.length
      exact (cloneAll_fresh _ _ r hr').2
    · intro hsx hmem r hr
      show r ∉ (cloneAll
        (s.history.getD (s.historyIndex - 1).toNat default).objects s.store).1
      intro hcontra
      have h1 := (cloneAll_fresh _ _ r hcontra).1
      have h2 := hI.2.2.1 hsx hmem r hr
      omega
  · right
    exact hTl
  · exact hA
  · intro r hr
    have hr' : (none : Option Nat) = some r := hr
    simp at hr'
  · by_cases htg : (s.history.getD (s.historyIndex - 1).toNat default).objects = []
    · have hcvne : cv.objects ≠ [] := fun he => hq ⟨he, htg⟩
      refine Or.inr (Or.inr ?_)
      show (s.history.getD (s.history.length - 1) default).objects ≠ []
      have hiff := agree_empty_iff s cv hc hI hne
      rw [← htn]
      exact fun hl => hcvne (hiff.mpr hl)
    · left
      show (cloneAll
        (s.history.getD (s.historyIndex - 1).toNat default).objects s.store).1 ≠ []
      intro he
      have hlen := cloneAll_fst_length
        (s.history.getD (s.historyIndex - 1).toNat default).objects s.store
      rw [he] at hlen
      exact htg (List.length_eq_zero.mp hlen.symm)

/-- Redo preserves the strengthened invariant: with the cursor pinned to the
tail its guard never holds, so it is a no-op. -/
lemma invT_redo (s : CanvasState) (h : InvT s) : InvT (redo s) := by
  obtain ⟨hI, hT, hA, hL⟩ := h
  by_cases hg : s.historyIndex < (s.history.length : Int) - 1
  · exfalso
    rcases hT with ⟨he, hi⟩ | hi
    · rw [he] at hg
      simp at hg
      omega
    · omega
  · rw [redo_eq_noop s hg]
    exact ⟨hI, hT, hA, hL⟩

/-- Every user event preserves the strengthened invariant. -/
lemma invT_applyOp (s : CanvasState) (h : InvT s) (op : Op) (hop : op ≠ Op.loaded) :
    InvT (applyOp s op) := by
  cases op with
  | loaded => exact absurd rfl hop
  | addRect => exact invT_addRectangleEvent s h
  | addCircle => exact invT_addCircleEvent s h
  | deleteSel => exact invT_deleteSelectedEvent s h
  | modify r d => exact invT_modifyObjectEvent s r d h
  | undoOp => exact invT_undo s h
  | redoOp => exact invT_redo s h
  | exportPng =>
    show InvT ((exportCanvas s).1)
    rw [exportCanvas_fst]
    exact h

/-- User-event sequences preserve the strengthened invariant. -/
lemma invT_runOps (s : CanvasState) (h : InvT s) (l : List Op)
    (hl : Op.loaded ∉ l) : InvT (runOps s l) := by
  induction l generalizing s with
  | nil => exact h
  | cons op l ih =>
    have hop : op ≠ Op.loaded := fun he => hl (he ▸ List.mem_cons_self _ _)
    have hl' : Op.loaded ∉ l := fun hm => hl (List.mem_cons_of_mem _ hm)
    exact ih (applyOp s op) (invT_applyOp s h op hop) hl'

/-- The post-load state satisfies the strengthened invariant. -/
lemma invT_loaded_init : InvT (imageLoaded initState) := by
  refine ⟨by decide, Or.inl ⟨rfl, rfl⟩, ?_, ?_⟩
  · intro j hj
    simp [imageLoaded, initState] at hj
  · intro r hr
    simp [activeOf, imageLoaded, initState] at hr

/-- loadState keeps a published canvas handle published. -/
lemma loadState_canvas_isSome (s : CanvasState) (hs : HistoryState)
    (h : s.canvas.isSome) : (loadState s hs).canvas.isSome := by
  cases hsc : s.canvas with
  | none =>
    rw [hsc] at h
    simp at h
  | some cv =>
    rw [loadState_eq s cv hsc]
    rfl

/-- No event unpublishes the canvas handle. -/
lemma applyOp_canvas_isSome (s : CanvasState) (h : s.canvas.isSome) (op : Op) :
    (applyOp s op).canvas.isSome := by
  obtain ⟨cv, hc⟩ := Option.isSome_iff_exists.mp h
  cases op with
  | loaded => rfl
  | addRect =>
    show (saveState (addRectangle s)).canvas.isSome
    rw [saveState_canvas]
    simp [addRectangle, hc]
  | addCircle =>
    show (saveState (addCircle s)).canvas.isSome
    rw [saveState_canvas]
    simp [addCircle, hc]
  | deleteSel =>
    show (deleteSelectedEvent s).canvas.isSome
    cases hao : cv.activeObject with
    | none => simp [deleteSelectedEvent, hc, hao]
    | some r0 =>
      simp only [deleteSelectedEvent, hc, hao]
      rw [saveState_canvas]
      simp [deleteSelected, hc, hao]
  | modify r d =>
    show (modifyObjectEvent s r d).canvas.isSome
    simp only [modifyObjectEvent, hc]
    by_cases hrm : r ∈ cv.objects
    · rw [if_pos hrm, saveState_canvas]
      show s.canvas.isSome
      exact h
    · rw [if_neg hrm]
      exact h
  | undoOp =>
    show (undo s).canvas.isSome
    by_cases hg : 0 < s.historyIndex
    · by_cases hq : cv.objects = [] ∧
          (s.history.getD (s.historyIndex - 1).toNat default).objects = []
      · rw [undo_eq_quiet s cv hg hc hq]
        exact loadState_canvas_isSome _ _ h
      · rw [undo_eq_feedback s cv hg hc hq, saveState_canvas]
        exact loadState_canvas_isSome _ _ h
    · rw [undo_eq_noop s hg]
      exact h
  | redoOp =>
    show (redo s).canvas.isSome
    by_cases hg : s.historyIndex < (s.history.length : Int) - 1
    · by_cases hq : cv.objects = [] ∧
          (s.history.getD (s.historyIndex + 1).toNat default).objects = []
      · rw [redo_eq_quiet s cv hg hc hq]
        exact loadState_canvas_isSome _ _ h
      · rw [redo_eq_feedback s cv hg hc hq, saveState_canvas]
        exact loadState_canvas_isSome _ _ h
    · rw [redo_eq_noop s hg]
      exact h
  | exportPng =>
    show ((exportCanvas s).1).canvas.isSome
    rw [exportCanvas_fst]
    exact h

/-- No event sequence unpublishes the canvas handle. -/
lemma runOps_canvas_isSome (s : CanvasState) (h : s.canvas.isSome) (l : List Op) :
    (runOps s l).canvas.isSome := by
  induction l generalizing s with
  | nil => exact h
  | cons op l ih => exact ih (applyOp s op) (applyOp_canvas_isSome s h op)


/-- C5: undo at cursor 0 and redo at cursor length-1 are no-ops: the whole
component state (shape collection, cursor, history log) is unchanged. -/
theorem C5_undo_redo_noop_at_bounds (s : CanvasState) :
    (s.historyIndex = 0 → undo s = s) ∧
    (s.historyIndex = (s.history.length : Int) - 1 → redo s = s) := by
  constructor
  · intro h0
    simp only [undo]
    rw [if_neg (by omega)]
  · intro h0
    simp only [redo]
    rw [if_neg (by omega)]

theorem C5_witness :
    undo (runOps initState [Op.loaded, Op.addRect])
      = runOps initState [Op.loaded, Op.addRect] ∧
    redo (runOps initState [Op.loaded, Op.addRect])
      = runOps initState [Op.loaded, Op.addRect] :=
  ⟨(C5_undo_redo_noop_at_bounds (runOps initState [Op.loaded, Op.addRect])).1
      (by decide),
   (C5_undo_redo_noop_at_bounds (runOps initState [Op.loaded, Op.addRect])).2
      (by decide)⟩

/-- C4: a capture first discards every snapshot with index greater than the
pre-capture cursor and then appends the new snapshot: the new length is
exactly cursor+2, entries up to the cursor are untouched, and the appended
last snapshot records the current canvas data.  (This holds in every
invariant state, in particular after any number of undo calls.) -/
theorem C4_capture_truncates (s : CanvasState) (cv : FabricCanvas)
    (hc : s.canvas = some cv) (h : Inv s) :
    (saveState s).history.length = (s.historyIndex + 1).toNat + 1 ∧
    (∀ j : Nat, (j : Int) ≤ s.historyIndex →
      (saveState s).history.getD j default = s.history.getD j default) ∧
    snapData (saveState s)
        ((saveState s).history.getD ((saveState s).history.length - 1) default)
      = canvasData s := by
  have hn : (s.historyIndex + 1).toNat ≤ s.history.length := by
    by_cases hh : s.history = []
    · have h1 := h.1.mp hh
      rw [hh]
      simp
      omega
    · have h1 := h.2.1 hh
      omega
  have htk : (s.history.take (s.historyIndex + 1).toNat).length
      = (s.historyIndex + 1).toNat := by
    simp
    omega
  have hcr : canvasRefs s = cv.objects := by simp [canvasRefs, hc]
  have h4' : ∀ r ∈ cv.objects, r < s.store.length := by
    intro r hr
    exact h.2.2.2.1 r (hcr ▸ hr)
  rw [saveState_eq s cv hc]
  refine ⟨?_, ?_, ?_⟩
  · simp only [List.length_append, List.length_cons, List.length_nil, htk]
  · intro j hj
    dsimp only
    have hj0 : 0 ≤ s.historyIndex := by omega
    have hjn : j < (s.historyIndex + 1).toNat := by omega
    rw [List.getD_append _ _ _ _ (by rw [htk]; exact hjn)]
    exact getD_take _ _ _ hjn
  · dsimp only
    have hlast : (List.take (s.historyIndex + 1).toNat s.history
        ++ [(⟨(cloneAll cv.objects s.store).1, s.time⟩ : HistoryState)]).length - 1
        = (List.take (s.historyIndex + 1).toNat s.history).length := by
      simp
    rw [hlast, List.getD_append_right _ _ _ _ (Nat.le_refl _)]
    simp only [Nat.sub_self, List.getD_cons_zero]
    simp only [snapData, canvasData, hcr]
    rw [cloneAll_data _ _ h4']

theorem C4_witness :
    (saveState (runOps initState [Op.loaded, Op.addRect])).history.length
      = ((runOps initState [Op.loaded, Op.addRect]).historyIndex + 1).toNat + 1 ∧
    (saveState (runOps initState [Op.loaded, Op.addRect])).history.getD 0 default
      = (runOps initState [Op.loaded, Op.addRect]).history.getD 0 default ∧
    snapData (saveState (runOps initState [Op.loaded, Op.addRect]))
        ((saveState (runOps initState [Op.loaded, Op.addRect])).history.getD
          ((saveState (runOps initState [Op.loaded, Op.addRect])).history.length - 1)
          default)
      = canvasData (runOps initState [Op.loaded, Op.addRect]) :=
  ⟨(C4_capture_truncates (runOps initState [Op.loaded, Op.addRect])
      ⟨[0], some 0⟩ (by decide) (by decide)).1,
   (C4_capture_truncates (runOps initState [Op.loaded, Op.addRect])
      ⟨[0], some 0⟩ (by decide) (by decide)).2.1 0 (by decide),
   (C4_capture_truncates (runOps initState [Op.loaded, Op.addRect])
      ⟨[0], some 0⟩ (by decide) (by decide)).2.2⟩

/-- C7: snapshots are isolated in both directions: overwriting the data of a
live canvas shape leaves the recorded data of every stored snapshot
unchanged, and every reference loadState puts on the canvas is a fresh
independent copy — it occurs in no stored snapshot, so the live surface and
the stored snapshots never share a reference. -/
theorem C7_snapshot_isolation (s : CanvasState) (h : Inv s) :
    (∀ r ∈ canvasRefs s, ∀ d : Shape, ∀ hs ∈ s.history,
      snapData (modifyObject s r d) hs = snapData s hs) ∧
    (∀ hs ∈ s.history, ∀ r ∈ canvasRefs (loadState s hs),
      ∀ hs2 ∈ s.history, r ∉ hs2.objects) := by
  constructor
  · intro r hr d hs hmem
    simp only [snapData, modifyObject]
    refine List.map_congr_left fun r' hr' => ?_
    have hne : r ≠ r' := by
      intro he
      exact h.2.2.2.2.1 hs hmem r' hr' (he ▸ hr)
    exact getD_set_ne _ _ _ _ hne
  · intro hs hmem r hr hs2 hmem2 hcontra
    cases hsc : s.canvas with
    | none =>
      rw [loadState_none s hsc] at hr
      exact h.2.2.2.2.1 hs2 hmem2 r hcontra hr
    | some cv =>
      rw [loadState_eq s cv hsc] at hr
      simp only [canvasRefs] at hr
      have h1 := (cloneAll_fresh _ _ r hr).1
      have h2 := h.2.2.1 hs2 hmem2 r hcontra
      omega

theorem C7_witness :
    snapData (modifyObject (runOps initState [Op.loaded, Op.addRect]) 0 defaultCircle)
        (HistoryState.mk [1] 0)
      = snapData (runOps initState [Op.loaded, Op.addRect]) (HistoryState.mk [1] 0) ∧
    2 ∉ (HistoryState.mk [1] 0).objects :=
  ⟨(C7_snapshot_isolation (runOps initState [Op.loaded, Op.addRect]) (by decide)).1
      0 (by decide) defaultCircle (HistoryState.mk [1] 0) (by decide),
   (C7_snapshot_isolation (runOps initState [Op.loaded, Op.addRect]) (by decide)).2
      (HistoryState.mk [1] 0) (by decide) 2 (by decide)
      (HistoryState.mk [1] 0) (by decide)⟩

/-- Before the load callback, every user event leaves the initial state
unchanged. -/
lemma applyOp_initState (op : Op) (hop : op ≠ Op.loaded) :
    applyOp initState op = initState := by
  cases op with
  | loaded => exact absurd rfl hop
  | addRect => rfl
  | addCircle => rfl
  | deleteSel => rfl
  | modify r d => rfl
  | undoOp => decide
  | redoOp => decide
  | exportPng => rfl

/-- A sequence of user events with no load leaves the initial state
unchanged. -/
lemma runOps_no_loaded (l : List Op) (h : Op.loaded ∉ l) :
    runOps initState l = initState := by
  induction l with
  | nil => rfl
  | cons op l ih =>
    have hop : op ≠ Op.loaded := fun he => h (he ▸ List.mem_cons_self _ _)
    have hl : Op.loaded ∉ l := fun hm => h (List.mem_cons_of_mem _ hm)
    simp only [runOps, List.foldl_cons]
    rw [applyOp_initState op hop]
    exact ih hl

/-- C9: no operation fails loudly: deleting with no active selection is a
complete no-op; with no published canvas every operation is a no-op and
export produces nothing; and when the backing element is unavailable (the
load callback never fires) any sequence of user operations leaves the
component in its initial state. -/
theorem C9_all_failures_degrade_to_noops :
    (∀ s : CanvasState, ∀ cv : FabricCanvas, s.canvas = some cv →
      cv.activeObject = none →
      deleteSelectedEvent s = s ∧ deleteSelected s = s) ∧
    (∀ s : CanvasState, s.canvas = none →
      addRectangleEvent s = s ∧ addCircleEvent s = s ∧
      deleteSelectedEvent s = s ∧ saveState s = s ∧
      (∀ hs : HistoryState, loadState s hs = s) ∧
      (∀ r : Nat, ∀ d : Shape, modifyObjectEvent s r d = s) ∧
      exportCanvas s = (s, none)) ∧
    (∀ l : List Op, Op.loaded ∉ l → runOps initState l = initState) := by
  refine ⟨?_, ?_, fun l hl => runOps_no_loaded l hl⟩
  · intro s cv hsc hao
    constructor
    · simp [deleteSelectedEvent, hsc, hao]
    · simp [deleteSelected, hsc, hao]
  · intro s hsc
    have hadd : addRectangle s = s := by simp [addRectangle, hsc]
    have haddc : addCircle s = s := by simp [addCircle, hsc]
    refine ⟨?_, ?_, ?_, saveState_none s hsc, fun hs => loadState_none s hsc hs,
      ?_, ?_⟩
    · simp only [addRectangleEvent, hadd, saveState_none s hsc]
    · simp only [addCircleEvent, haddc, saveState_none s hsc]
    · simp [deleteSelectedEvent, hsc]
    · intro r d
      simp [modifyObjectEvent, hsc]
    · simp [exportCanvas, hsc]

theorem C9_witness :
    deleteSelectedEvent (imageLoaded initState) = imageLoaded initState ∧
    addRectangleEvent initState = initState ∧
    runOps initState [Op.addRect, Op.undoOp, Op.exportPng] = initState :=
  ⟨(C9_all_failures_degrade_to_noops.1 (imageLoaded initState)
      ⟨[], none⟩ (by decide) (by decide)).1,
   (C9_all_failures_degrade_to_noops.2.1 initState (by decide)).1,
   C9_all_failures_degrade_to_noops.2.2 [Op.addRect, Op.undoOp, Op.exportPng]
      (by decide)⟩

/-- C10: before the image-load callback has run — the only place the canvas
handle is published — every sequence of user-triggered operations leaves the
component in its initial state: the history log stays empty, the cursor
stays -1, the canvas stays empty, and export produces nothing. -/
theorem C10_noop_before_load (l : List Op) (h : Op.loaded ∉ l) :
    runOps initState l = initState ∧
    (runOps initState l).history = [] ∧
    (runOps initState l).historyIndex = -1 ∧
    canvasData (runOps initState l) = [] ∧
    (exportCanvas (runOps initState l)).2 = none := by
  have he := runOps_no_loaded l h
  rw [he]
  exact ⟨rfl, rfl, rfl, rfl, rfl⟩

theorem C10_witness :
    runOps initState [Op.addRect, Op.undoOp, Op.addCircle, Op.redoOp, Op.deleteSel]
      = initState ∧
    (runOps initState [Op.addRect, Op.undoOp, Op.addCircle, Op.redoOp, Op.deleteSel]).history
      = [] ∧
    (runOps initState [Op.addRect, Op.undoOp, Op.addCircle, Op.redoOp, Op.deleteSel]).historyIndex
      = -1 ∧
    canvasData (runOps initState
      [Op.addRect, Op.undoOp, Op.addCircle, Op.redoOp, Op.deleteSel]) = [] ∧
    (exportCanvas (runOps initState
      [Op.addRect, Op.undoOp, Op.addCircle, Op.redoOp, Op.deleteSel])).2 = none :=
  C10_noop_before_load
    [Op.addRect, Op.undoOp, Op.addCircle, Op.redoOp, Op.deleteSel] (by decide)

/-- C1: for every add/modify/remove event on the surface — in any state the
surface can reach during its lifetime — the capture triggered by that event
increases the history log length by exactly one and sets the cursor to the
new last index (length-1).  This holds because in every reachable state the
cursor sits at the tail (even an effective undo pins it there, through its
feedback captures), so the capture's truncation discards nothing. -/
theorem C1_event_capture_growth (l : List Op) (hl : Op.loaded ∉ l)
    (s : CanvasState) (hs : s = runOps (imageLoaded initState) l) :
    ((addRectangleEvent s).history.length = s.history.length + 1 ∧
      (addRectangleEvent s).historyIndex
        = ((addRectangleEvent s).history.length : Int) - 1) ∧
    ((addCircleEvent s).history.length = s.history.length + 1 ∧
      (addCircleEvent s).historyIndex
        = ((addCircleEvent s).history.length : Int) - 1) ∧
    (∀ cv : FabricCanvas, ∀ r : Nat,
      s.canvas = some cv → cv.activeObject = some r →
      (deleteSelectedEvent s).history.length = s.history.length + 1 ∧
      (deleteSelectedEvent s).historyIndex
        = ((deleteSelectedEvent s).history.length : Int) - 1) ∧
    (∀ cv : FabricCanvas, ∀ r : Nat, ∀ d : Shape,
      s.canvas = some cv → r ∈ cv.objects →
      (modifyObjectEvent s r d).history.length = s.history.length + 1 ∧
      (modifyObjectEvent s r d).historyIndex
        = ((modifyObjectEvent s r d).history.length : Int) - 1) := by
  have hT : Tail s := by
    rw [hs]
    exact (invT_runOps (imageLoaded initState) invT_loaded_init l hl).2.1
  have hSome : s.canvas.isSome := by
    rw [hs]
    exact runOps_canvas_isSome (imageLoaded initState) rfl l
  obtain ⟨cv0, hc0⟩ := Option.isSome_iff_exists.mp hSome
  refine ⟨?_, ?_, ?_, ?_⟩
  · have h1 : addRectangle s =
        { s with
          store := s.store ++ [defaultRect]
          canvas := some { objects := cv0.objects ++ [s.store.length],
                           activeObject := some s.store.length } } := by
      simp [addRectangle, hc0]
    have hcA : (addRectangle s).canvas
        = some (FabricCanvas.mk (cv0.objects ++ [s.store.length])
            (some s.store.length)) := by
      rw [h1]
    have htA : Tail (addRectangle s) := by
      rw [h1]
      exact hT
    have hsp := captureEvent_spec (addRectangle s) _ hcA htA
    have h2 : (addRectangle s).history = s.history := by rw [h1]
    constructor
    · show (saveState (addRectangle s)).history.length = s.history.length + 1
      rw [hsp.1, h2]
    · exact hsp.2
  · have h1 : addCircle s =
        { s with
          store := s.store ++ [defaultCircle]
          canvas := some { objects := cv0.objects ++ [s.store.length],
                           activeObject := some s.store.length } } := by
      simp [addCircle, hc0]
    have hcA : (addCircle s).canvas
        = some (FabricCanvas.mk (cv0.objects ++ [s.store.length])
            (some s.store.length)) := by
      rw [h1]
    have htA : Tail (addCircle s) := by
      rw [h1]
      exact hT
    have hsp := captureEvent_spec (addCircle s) _ hcA htA
    have h2 : (addCircle s).history = s.history := by rw [h1]
    constructor
    · show (saveState (addCircle s)).history.length = s.history.length + 1
      rw [hsp.1, h2]
    · exact hsp.2
  · intro cv r hcv hao
    have h1 : deleteSelected s =
        { s with canvas := some { objects := cv.objects.erase r,
                                  activeObject := none } } := by
      simp [deleteSelected, hcv, hao]
    have hcA : (deleteSelected s).canvas
        = some (FabricCanvas.mk (cv.objects.erase r) none) := by
      rw [h1]
    have htA : Tail (deleteSelected s) := by
      rw [h1]
      exact hT
    have hsp := captureEvent_spec (deleteSelected s) _ hcA htA
    have h2 : (deleteSelected s).history = s.history := by rw [h1]
    constructor
    · show (deleteSelectedEvent s).history.length = s.history.length + 1
      simp only [deleteSelectedEvent, hcv, hao]
      rw [hsp.1, h2]
    · show (deleteSelectedEvent s).historyIndex
        = ((deleteSelectedEvent s).history.length : Int) - 1
      simp only [deleteSelectedEvent, hcv, hao]
      exact hsp.2
  · intro cv r d hcv hrm
    have hcA : (modifyObject s r d).canvas = some cv := hcv
    have htA : Tail (modifyObject s r d) := hT
    have hsp := captureEvent_spec (modifyObject s r d) cv hcA htA
    constructor
    · show (modifyObjectEvent s r d).history.length = s.history.length + 1
      simp only [modifyObjectEvent, hcv]
      rw [if_pos hrm]
      exact hsp.1
    · show (modifyObjectEvent s r d).historyIndex
        = ((modifyObjectEvent s r d).history.length : Int) - 1
      simp only [modifyObjectEvent, hcv]
      rw [if_pos hrm]
      exact hsp.2

theorem C1_witness :
    ((addRectangleEvent (runOps (imageLoaded initState) [Op.addRect])).history.length
        = (runOps (imageLoaded initState) [Op.addRect]).history.length + 1 ∧
      (addRectangleEvent (runOps (imageLoaded initState) [Op.addRect])).historyIndex
        = ((addRectangleEvent (runOps (imageLoaded initState)
            [Op.addRect])).history.length : Int) - 1) ∧
    ((addCircleEvent (runOps (imageLoaded initState) [Op.addRect])).history.length
        = (runOps (imageLoaded initState) [Op.addRect]).history.length + 1 ∧
      (addCircleEvent (runOps (imageLoaded initState) [Op.addRect])).historyIndex
        = ((addCircleEvent (runOps (imageLoaded initState)
            [Op.addRect])).history.length : Int) - 1) ∧
    ((deleteSelectedEvent (runOps (imageLoaded initState) [Op.addRect])).history.length
        = (runOps (imageLoaded initState) [Op.addRect]).history.length + 1 ∧
      (deleteSelectedEvent (runOps (imageLoaded initState) [Op.addRect])).historyIndex
        = ((deleteSelectedEvent (runOps (imageLoaded initState)
            [Op.addRect])).history.length : Int) - 1) ∧
    ((modifyObjectEvent (runOps (imageLoaded initState) [Op.addRect])
          0 defaultCircle).history.length
        = (runOps (imageLoaded initState) [Op.addRect]).history.length + 1 ∧
      (modifyObjectEvent (runOps (imageLoaded initState) [Op.addRect])
          0 defaultCircle).historyIndex
        = ((modifyObjectEvent (runOps (imageLoaded initState) [Op.addRect])
            0 defaultCircle).history.length : Int) - 1) :=
  ⟨(C1_event_capture_growth [Op.addRect] (by decide) _ rfl).1,
   (C1_event_capture_growth [Op.addRect] (by decide) _ rfl).2.1,
   (C1_event_capture_growth [Op.addRect] (by decide) _ rfl).2.2.1
      ⟨[0], some 0⟩ 0 (by decide) (by decide),
   (C1_event_capture_growth [Op.addRect] (by decide) _ rfl).2.2.2
      ⟨[0], some 0⟩ 0 defaultCircle (by decide) (by decide)⟩

/-- C2 (code bug): at a component state whose cursor (1) is strictly
between 0 and length-1 (length 3) and which satisfies the invariant,
undo's feedback captures pin the cursor to the new tail, so the
immediately following redo is a no-op: neither the cursor nor the shape
collection returns to its pre-undo value. -/
theorem C2_undo_redo_divergence :
    0 < c2State.historyIndex ∧
    c2State.historyIndex < (c2State.history.length : Int) - 1 ∧
    Inv c2State ∧
    redo (undo c2State) = undo c2State ∧
    (redo (undo c2State)).historyIndex ≠ c2State.historyIndex ∧
    canvasData (redo (undo c2State)) ≠ canvasData c2State := by decide

/-- C3 (code bug): the undo click is not history-neutral: from the
reachable state load → addRectangle → addCircle (log length 2), the object
events fired during undo's loadState re-run saveState, so the committed
log has length 3 with the cursor at the new tail. -/
theorem C3_undo_mutates_log :
    (runOps initState [Op.loaded, Op.addRect, Op.addCircle]).history.length = 2 ∧
    (undo (runOps initState [Op.loaded, Op.addRect, Op.addCircle])).history.length
      = 3 ∧
    (undo (runOps initState [Op.loaded, Op.addRect, Op.addCircle])).historyIndex
      = 2 := by decide

/-- C6 (code bug): the load callback's saveState closes over the initial
render's null canvas, so no initial capture happens: after the load the log
is still empty with cursor -1, and load → addRectangle → addCircle yields
log length 2 with cursor 1, not length 3 with cursor 2. -/
theorem C6_no_initial_capture :
    (imageLoaded initState).history.length = 0 ∧
    (imageLoaded initState).historyIndex = -1 ∧
    scenarioC6.history.length = 2 ∧
    scenarioC6.historyIndex = 1 ∧
    ¬(scenarioC6.history.length = 3 ∧ scenarioC6.historyIndex = 2) := by decide

/-- C8: the cursor is always in the set consisting of -1 and the valid
indices: along every user-event sequence of the surface's lifetime — both
before and after the one image-load callback — the cursor is -1 exactly
while the snapshot sequence is empty, and once at least one snapshot exists
it is a valid index into the sequence. -/
theorem C8_cursor_always_valid (l : List Op) (hl : Op.loaded ∉ l) :
    ((runOps initState l).history = [] ↔ (runOps initState l).historyIndex = -1) ∧
    ((runOps initState l).history ≠ [] →
      0 ≤ (runOps initState l).historyIndex ∧
      (runOps initState l).historyIndex < ((runOps initState l).history.length : Int)) ∧
    ((runOps (imageLoaded initState) l).history = []
      ↔ (runOps (imageLoaded initState) l).historyIndex = -1) ∧
    ((runOps (imageLoaded initState) l).history ≠ [] →
      0 ≤ (runOps (imageLoaded initState) l).historyIndex ∧
      (runOps (imageLoaded initState) l).historyIndex
        < ((runOps (imageLoaded initState) l).history.length : Int)) := by
  have h1 := inv_runOps initState inv_init l hl
  have h2 := inv_runOps (imageLoaded initState) (by decide) l hl
  exact ⟨h1.1, h1.2.1, h2.1, h2.2.1⟩

theorem C8_witness :
    0 ≤ (runOps (imageLoaded initState) [Op.addRect]).historyIndex ∧
    (runOps (imageLoaded initState) [Op.addRect]).historyIndex
      < ((runOps (imageLoaded initState) [Op.addRect]).history.length : Int) :=
  (C8_cursor_always_valid [Op.addRect] (by decide)).2.2.2 (by decide)

end EditorApp



